import Mathlib

/-!
Verification of the aspect engine of the AstroChart repository
(file src/aspect.ts), shallowly embedded over the rationals.

Angles are modelled as rational numbers of degrees.  JavaScript number
arithmetic on the values appearing here (sums, differences, absolute
values, halving, the remainder operator and comparisons) is modelled by
exact rational arithmetic.  Point sets and the aspect catalog, which the
source iterates with for-in over plain objects, are modelled as
association lists in insertion order.
-/

namespace AstroChart

/-- Modelled from the spec: the source imports the degree conversion
collaborator radiansToDegree from a utils module that is not part of the
provided source.  Per the spec it is a pure radian-to-degree conversion
consumed only at the constant PI, which an implementer may hardcode as
the constant 180 degrees. -/
def radiansToDegreePi : ℚ := 180

/-- Modelled from the spec: the value of the degree conversion
collaborator at two times PI, hardcoded as 360 degrees (see
radiansToDegreePi). -/
def radiansToDegreeTwoPi : ℚ := 360

/-- An entry of the aspect catalog: target degree, total orbit width and
presentation attributes, as in the source object literals. -/
structure AspectData where
  degree : ℚ
  orbit : ℚ
  color : String
  lineStyle : String
deriving DecidableEq

/-- The aspect catalog: aspect name to definition, in insertion order. -/
abbrev Aspects := List (String × AspectData)

/-- A point value: the source stores an array whose element 0 is the
position and whose optional element 1 is the speed. -/
structure PointData where
  position : ℚ
  speed : Option ℚ
deriving DecidableEq

/-- A point set: point name to point value, in insertion order. -/
abbrev Points := List (String × PointData)

/-- The point part of a formed aspect record. -/
structure PointOut where
  name : String
  position : ℚ
deriving DecidableEq

/-- The aspect part of a formed aspect record. -/
structure AspectOut where
  name : String
  degree : ℚ
  color : String
  orbit : ℚ
  lineStyle : String
deriving DecidableEq

/-- The FormedAspect output record of the source. -/
structure FormedAspect where
  point : PointOut
  toPoint : PointOut
  aspect : AspectOut
  precision : String
deriving DecidableEq

/-- The DEFAULT_ASPECTS catalog of the source, in insertion order. -/
def DEFAULT_ASPECTS : Aspects :=
  [("opposition", ⟨180, 10, "#ff0000", "solid"⟩),
   ("square", ⟨90, 8, "#ff0000", "short"⟩),
   ("trine", ⟨120, 8, "#0000ff", "solid"⟩),
   ("sextile", ⟨60, 8, "#0000ff", "short"⟩),
   ("quincunx", ⟨150, 8, "#00ff00", "5,5"⟩),
   ("semisextile", ⟨30, 8, "#00ff00", "2,2"⟩),
   ("semisquare", ⟨45, 8, "#0000ff", "1,1"⟩),
   ("sesquisquare", ⟨135, 8, "#0000ff", "6,2"⟩),
   ("conjunction", ⟨0, 10, "transparent", "dashed"⟩)]

/-- Truncation toward zero, as used by the JavaScript remainder. -/
def truncQ (q : ℚ) : ℤ :=
  if 0 ≤ q then ⌊q⌋ else ⌈q⌉

/-- The JavaScript remainder operator on numbers: the result has the
sign of the dividend and satisfies x % y = x - y * trunc (x / y). -/
def jsMod (x y : ℚ) : ℚ :=
  x - y * (truncQ (x / y) : ℚ)

/-- The gap reduction shared by hasAspect and calcPrecision in the
source: the absolute difference, folded once onto the shorter arc when
it exceeds 180 degrees. -/
def reducedGap (point toPoint : ℚ) : ℚ :=
  let gap := |point - toPoint|
  if gap > radiansToDegreePi then radiansToDegreeTwoPi - gap else gap

/-- hasAspect from the source: membership of the reduced gap in the
closed window of half the orbit on each side of the target degree. -/
def hasAspect (point toPoint : ℚ) (aspect : AspectData) : Bool :=
  let gap := reducedGap point toPoint
  let orbitMin := aspect.degree - aspect.orbit / 2
  let orbitMax := aspect.degree + aspect.orbit / 2
  decide (orbitMin ≤ gap ∧ gap ≤ orbitMax)

/-- calcPrecision from the source: the absolute distance of the reduced
gap from the target aspect degree. -/
def calcPrecision (point toPoint aspect : ℚ) : ℚ :=
  |reducedGap point toPoint - aspect|

/-- isTransitPointApproachingToAspect from the source: advance one of
the two positions by the aspect degree modulo 360, swap when the
difference exceeds 180, and compare. -/
def isTransitPointApproachingToAspect (aspect toPoint point : ℚ) : Bool :=
  let moved : ℚ × ℚ :=
    if point - toPoint > 0 then
      if point - toPoint > radiansToDegreePi then
        (jsMod (point + aspect) radiansToDegreeTwoPi, toPoint)
      else
        (point, jsMod (toPoint + aspect) radiansToDegreeTwoPi)
    else
      if toPoint - point > radiansToDegreePi then
        (point, jsMod (toPoint + aspect) radiansToDegreeTwoPi)
      else
        (jsMod (point + aspect) radiansToDegreeTwoPi, toPoint)
  let pair :=
    if |moved.1 - moved.2| > radiansToDegreePi then (moved.2, moved.1)
    else (moved.1, moved.2)
  decide (pair.1 - pair.2 < 0)

/-- The retrograde test of the transit loop: the speed entry is present,
truthy as a JavaScript number, and negative. -/
def isRetrograde (speed : Option ℚ) : Bool :=
  match speed with
  | some s => decide (s ≠ 0) && decide (s < 0)
  | none => false

/-- The signed precision computed inside the transit loop: the unsigned
calcPrecision value, negated once when the transiting point is judged
approaching and once more when it is retrograde. -/
def transitPrecision (degree point toPoint : ℚ) (speed : Option ℚ) : ℚ :=
  let precision := calcPrecision point toPoint degree
  let precision :=
    if isTransitPointApproachingToAspect degree toPoint point then precision * (-1)
    else precision
  let precision :=
    if isRetrograde speed then precision * (-1)
    else precision
  precision

/-- Left-pad a digit string with zeros to the given length. -/
def padLeftZeros (k : ℕ) (s : String) : String :=
  String.mk (List.replicate (k - s.length) (Char.ofNat 48)) ++ s

/-- The JavaScript toFixed with four fraction digits, as applied to the
precision values: an optional minus sign for negative inputs, then the
absolute value rounded half-up at the fourth decimal and printed with
exactly four fraction digits. -/
def toFixed4 (q : ℚ) : String :=
  let sign := if q < 0 then "-" else ""
  let n : ℕ := (⌊|q| * 10000 + 1 / 2⌋).toNat
  sign ++ Nat.repr (n / 10000) ++ "." ++ padLeftZeros 4 (Nat.repr (n % 10000))

/-- Fold a list of decimal digit characters into a natural number. -/
def digitsToNat (cs : List Char) : ℕ :=
  cs.foldl (fun acc c => 10 * acc + (c.toNat - 48)) 0

/-- Parse the unsigned part of a decimal numeral: digits, an optional
dot, and fraction digits. -/
def parseUnsignedQ (cs : List Char) : ℚ :=
  let intPart := cs.takeWhile (fun c => c ≠ Char.ofNat 46)
  let fracPart := (cs.dropWhile (fun c => c ≠ Char.ofNat 46)).drop 1
  (digitsToNat intPart : ℚ) + (digitsToNat fracPart : ℚ) / (10 : ℚ) ^ fracPart.length

/-- The JavaScript parseFloat as applied by the comparator to the fixed
four-digit decimal strings stored in the precision field. -/
def parseFloatQ (s : String) : ℚ :=
  match s.toList with
  | c :: rest =>
      if c = Char.ofNat 45 then -(parseUnsignedQ rest) else parseUnsignedQ (c :: rest)
  | [] => 0

/-- compareAspectsByPrecision from the source: the difference of the
parsed precision fields. -/
def compareAspectsByPrecision (a b : FormedAspect) : ℚ :=
  parseFloatQ a.precision - parseFloatQ b.precision

/-- The ordering induced by the comparator, as consumed by the sort of
the result arrays: a record sorts no later than another when the
comparator is nonpositive. -/
def precisionLe (a b : FormedAspect) : Bool :=
  decide (compareAspectsByPrecision a b ≤ 0)

/-- The optional settings object of the constructor, restricted to the
one field the engine consumes. -/
structure SettingsOpt where
  ASPECTS : Option Aspects
deriving DecidableEq

/-- The state bound by the AspectCalculator constructor: the resolved
aspect catalog and the reference point set. -/
structure AspectCalculator where
  settings_ASPECTS : Aspects
  toPoints : Points
deriving DecidableEq

/-- The constructor of AspectCalculator: a null reference set throws,
otherwise the catalog is resolved to the caller catalog when present and
to DEFAULT_ASPECTS otherwise. -/
def AspectCalculator.make (toPoints : Option Points) (settings : Option SettingsOpt) :
    Except String AspectCalculator :=
  match toPoints with
  | none => Except.error "Param \x27toPoint\x27 must not be empty."
  | some tp =>
      Except.ok
        { settings_ASPECTS := ((settings.bind fun s => s.ASPECTS).getD DEFAULT_ASPECTS)
          toPoints := tp }

/-- The record pushed by the radix loop for a matching triple. -/
def radixRecord (pn : String) (pd : PointData) (tn : String) (td : PointData)
    (an : String) (ad : AspectData) : FormedAspect :=
  { point := { name := pn, position := pd.position }
    toPoint := { name := tn, position := td.position }
    aspect := { name := an, degree := ad.degree, orbit := ad.orbit,
                color := ad.color, lineStyle := ad.lineStyle }
    precision := toFixed4 (calcPrecision pd.position td.position ad.degree) }

/-- The unsorted record list built by the nested radix loops: every
query point against every reference point of a different name, against
every catalog entry passing hasAspect. -/
def radixList (c : AspectCalculator) (pts : Points) : List FormedAspect :=
  pts.flatMap fun pp =>
    c.toPoints.flatMap fun tp =>
      if pp.1 ≠ tp.1 then
        (c.settings_ASPECTS.filter fun asp =>
            hasAspect pp.2.position tp.2.position asp.2).map fun asp =>
          radixRecord pp.1 pp.2 tp.1 tp.2 asp.1 asp.2
      else []

/-- The radix entry point: a null query set yields the empty list,
otherwise the loop output sorted by the precision comparator. -/
def AspectCalculator.radix (c : AspectCalculator) (points : Option Points) :
    List FormedAspect :=
  match points with
  | none => []
  | some pts => (radixList c pts).mergeSort precisionLe

/-- The record pushed by the transit loop for a matching triple, with
the signed precision. -/
def transitRecord (pn : String) (pd : PointData) (tn : String) (td : PointData)
    (an : String) (ad : AspectData) : FormedAspect :=
  { point := { name := pn, position := pd.position }
    toPoint := { name := tn, position := td.position }
    aspect := { name := an, degree := ad.degree, orbit := ad.orbit,
                color := ad.color, lineStyle := ad.lineStyle }
    precision := toFixed4 (transitPrecision ad.degree pd.position td.position pd.speed) }

/-- The unsorted record list built by the nested transit loops: every
query point against every reference point, with no same-name exclusion,
against every catalog entry passing hasAspect. -/
def transitList (c : AspectCalculator) (pts : Points) : List FormedAspect :=
  pts.flatMap fun pp =>
    c.toPoints.flatMap fun tp =>
      (c.settings_ASPECTS.filter fun asp =>
          hasAspect pp.2.position tp.2.position asp.2).map fun asp =>
        transitRecord pp.1 pp.2 tp.1 tp.2 asp.1 asp.2

/-- The transit entry point: a null query set yields the empty list,
otherwise the loop output sorted by the precision comparator. -/
def AspectCalculator.transit (c : AspectCalculator) (points : Option Points) :
    List FormedAspect :=
  match points with
  | none => []
  | some pts => (transitList c pts).mergeSort precisionLe

/-! ## Helper lemmas -/

/-- The hasAspect test unfolded to the closed window condition. -/
theorem hasAspect_eq_true_iff (p t : ℚ) (a : AspectData) :
    hasAspect p t a = true ↔
      a.degree - a.orbit / 2 ≤ reducedGap p t ∧ reducedGap p t ≤ a.degree + a.orbit / 2 := by
  simp [hasAspect]

/-- The gap reduction is symmetric in its two arguments. -/
theorem reducedGap_comm (a b : ℚ) : reducedGap a b = reducedGap b a := by
  simp only [reducedGap, abs_sub_comm]

/-- Adding a full turn to the smaller of two in-range angles does not
change the reduced gap. -/
theorem reducedGap_add360_left (a b : ℚ) (h0 : 0 ≤ a) (hab : a ≤ b) (hb : b < 360) :
    reducedGap (a + 360) b = reducedGap a b := by
  simp only [reducedGap, radiansToDegreePi, radiansToDegreeTwoPi]
  have h1 : |a - b| = b - a := by
    rw [abs_sub_comm]
    exact abs_of_nonneg (by linarith)
  have h2 : |a + 360 - b| = a + 360 - b := abs_of_nonneg (by linarith)
  rw [h1, h2]
  split_ifs <;> linarith

/-- Truncation toward zero agrees with the floor on nonnegatives. -/
theorem truncQ_nonneg (q : ℚ) (h : 0 ≤ q) : truncQ q = ⌊q⌋ := if_pos h

/-- The JavaScript remainder by 360 is the identity inside one turn. -/
theorem jsMod_eq_self (x : ℚ) (h0 : 0 ≤ x) (h1 : x < 360) : jsMod x 360 = x := by
  unfold jsMod
  rw [truncQ_nonneg _ (div_nonneg h0 (by norm_num))]
  have hf : ⌊x / 360⌋ = 0 := by
    rw [Int.floor_eq_zero_iff, Set.mem_Ico]
    exact ⟨div_nonneg h0 (by norm_num), by rw [div_lt_one (by norm_num)]; exact h1⟩
  rw [hf]
  push_cast
  ring

/-- The JavaScript remainder by 360 subtracts one turn inside the
second turn. -/
theorem jsMod_sub_360 (x : ℚ) (h0 : 360 ≤ x) (h1 : x < 720) : jsMod x 360 = x - 360 := by
  unfold jsMod
  rw [truncQ_nonneg _ (div_nonneg (by linarith) (by norm_num))]
  have hf : ⌊x / 360⌋ = 1 := by
    rw [Int.floor_eq_iff]
    constructor
    · rw [le_div_iff₀ (by norm_num)]
      push_cast
      linarith
    · rw [div_lt_iff₀ (by norm_num)]
      push_cast
      linarith
  rw [hf]
  push_cast
  ring

/-- The sort comparator accepts a pair exactly when the parsed
precision fields are in order. -/
theorem precisionLe_iff (a b : FormedAspect) :
    precisionLe a b = true ↔ parseFloatQ a.precision ≤ parseFloatQ b.precision := by
  simp [precisionLe, compareAspectsByPrecision, sub_nonpos]

/-- Sorting any record list with the precision comparator yields a list
whose consecutive records have nondecreasing parsed precision. -/
theorem chain_of_mergeSort (l : List FormedAspect) :
    List.Chain' (fun r s => parseFloatQ r.precision ≤ parseFloatQ s.precision)
      (l.mergeSort precisionLe) := by
  have htrans : ∀ a b c : FormedAspect,
      precisionLe a b = true → precisionLe b c = true → precisionLe a c = true := by
    intro a b c hab hbc
    rw [precisionLe_iff] at hab hbc ⊢
    exact le_trans hab hbc
  have htotal : ∀ a b : FormedAspect, (precisionLe a b || precisionLe b a) = true := by
    intro a b
    rw [Bool.or_eq_true, precisionLe_iff, precisionLe_iff]
    exact le_total _ _
  have hp := List.sorted_mergeSort htrans htotal l
  exact (hp.imp fun h => (precisionLe_iff _ _).mp h).chain'

/-- The signed transit precision as a product of sign factors. -/
theorem transitPrecision_eq (deg p t : ℚ) (sp : Option ℚ) :
    transitPrecision deg p t sp =
      (if isTransitPointApproachingToAspect deg t p then (-1 : ℚ) else 1) *
        ((if isRetrograde sp then (-1 : ℚ) else 1) * calcPrecision p t deg) := by
  unfold transitPrecision
  split_ifs <;> ring

section RatComputation

attribute [local semireducible] Rat.add Rat.sub Rat.mul Rat.inv Rat.ofScientific

/-- Formatting an exactly zero precision yields the plain zero string. -/
theorem toFixed4_zero : toFixed4 0 = "0.0000" := by decide

end RatComputation

/-! ## Claim theorems -/

/-- C1: hasAspect holds exactly when the reduced gap lies in the closed
window of half the orbit on each side of the target degree, and is false
strictly outside it. -/
theorem hasAspect_closed_window (p t : ℚ) (a : AspectData) :
    hasAspect p t a = true ↔
      a.degree - a.orbit / 2 ≤ reducedGap p t ∧ reducedGap p t ≤ a.degree + a.orbit / 2 :=
  hasAspect_eq_true_iff p t a

/-- C2: the signed transit precision is the unsigned calcPrecision value
negated once per true approach classification and once more per present
negative speed; for an approaching retrograde point the two negations
cancel and the result is the nonnegative unsigned precision. -/
theorem transitPrecision_double_negation (deg p t : ℚ) (sp : Option ℚ) :
    transitPrecision deg p t sp =
      (if isTransitPointApproachingToAspect deg t p then (-1 : ℚ) else 1) *
        ((if isRetrograde sp then (-1 : ℚ) else 1) * calcPrecision p t deg) ∧
      (isTransitPointApproachingToAspect deg t p = true → isRetrograde sp = true →
        transitPrecision deg p t sp = calcPrecision p t deg ∧
          0 ≤ transitPrecision deg p t sp) := by
  refine ⟨transitPrecision_eq deg p t sp, fun h1 h2 => ?_⟩
  have h : transitPrecision deg p t sp = calcPrecision p t deg := by
    rw [transitPrecision_eq, if_pos h1, if_pos h2]
    ring
  exact ⟨h, h ▸ abs_nonneg _⟩

/-- C4 (amended): the reduced gap is symmetric in its two arguments,
and adding 360 degrees before reduction preserves it exactly when the
turn is added to the angle that does not exceed the other. -/
theorem reducedGap_swap_and_add_turn (a b : ℚ) :
    reducedGap a b = reducedGap b a ∧
      (0 ≤ a → a ≤ b → b < 360 → reducedGap (a + 360) b = reducedGap a b) ∧
      (0 ≤ b → b ≤ a → a < 360 → reducedGap a (b + 360) = reducedGap a b) := by
  refine ⟨reducedGap_comm a b, fun h0 hab hb => reducedGap_add360_left a b h0 hab hb,
    fun h0 hba ha => ?_⟩
  rw [reducedGap_comm a (b + 360), reducedGap_add360_left b a h0 hba ha, reducedGap_comm]

/-- The signed transit precision has the unsigned calcPrecision value
as its absolute value. -/
theorem abs_transitPrecision (deg p t : ℚ) (sp : Option ℚ) :
    |transitPrecision deg p t sp| = calcPrecision p t deg := by
  rw [transitPrecision_eq]
  split_ifs <;>
    simp [neg_one_mul, one_mul, neg_neg, abs_neg, calcPrecision, abs_abs]

/-- A pair of positions passing the hasAspect test has its unsigned
precision at most half the orbit of the matched aspect. -/
theorem calcPrecision_le_of_hasAspect (p t : ℚ) (a : AspectData)
    (h : hasAspect p t a = true) :
    calcPrecision p t a.degree ≤ a.orbit / 2 := by
  obtain ⟨h1, h2⟩ := (hasAspect_eq_true_iff p t a).mp h
  rw [calcPrecision, abs_le]
  constructor <;> linarith

/-- Every record of the unsorted radix list stems from a triple passing
hasAspect, with the precision string formatted from the corresponding
calcPrecision value. -/
theorem exists_source_of_mem_radixList (c : AspectCalculator) (pts : Points)
    (r : FormedAspect) (h : r ∈ radixList c pts) :
    ∃ p t a, hasAspect p t a = true ∧
      r.precision = toFixed4 (calcPrecision p t a.degree) ∧
      r.aspect.degree = a.degree ∧ r.aspect.orbit = a.orbit := by
  simp only [radixList, List.mem_flatMap] at h
  obtain ⟨pp, _, tp, _, hmem⟩ := h
  by_cases hne : pp.1 = tp.1
  · rw [if_neg (not_not_intro hne)] at hmem
    simp at hmem
  · rw [if_pos hne] at hmem
    simp only [List.mem_map, List.mem_filter] at hmem
    obtain ⟨asp, ⟨_, hhas⟩, hr⟩ := hmem
    refine ⟨pp.2.position, tp.2.position, asp.2, hhas, ?_, ?_, ?_⟩ <;>
      (rw [← hr]; rfl)

/-- Every record of the unsorted transit list stems from a triple
passing hasAspect, with the precision string formatted from the
corresponding signed transitPrecision value. -/
theorem exists_source_of_mem_transitList (c : AspectCalculator) (pts : Points)
    (r : FormedAspect) (h : r ∈ transitList c pts) :
    ∃ p t sp a, hasAspect p t a = true ∧
      r.precision = toFixed4 (transitPrecision a.degree p t sp) ∧
      r.aspect.degree = a.degree ∧ r.aspect.orbit = a.orbit := by
  simp only [transitList, List.mem_flatMap, List.mem_map, List.mem_filter] at h
  obtain ⟨pp, _, tp, _, asp, ⟨_, hhas⟩, hr⟩ := h
  refine ⟨pp.2.position, tp.2.position, pp.2.speed, asp.2, hhas, ?_, ?_, ?_⟩ <;>
    (rw [← hr]; rfl)

/-- C6: every record emitted by radix or transit formats a precision
value whose unsigned magnitude lies between zero and half the orbit of
the matched aspect, since calcPrecision is at most half the orbit for
any pair passing the hasAspect test. -/
theorem precision_within_half_orbit (c : AspectCalculator) (points : Option Points)
    (r : FormedAspect) (h : r ∈ c.radix points ∨ r ∈ c.transit points) :
    ∃ s : ℚ, r.precision = toFixed4 s ∧ 0 ≤ |s| ∧ |s| ≤ r.aspect.orbit / 2 := by
  rcases h with h | h
  · cases points with
    | none => simp [AspectCalculator.radix] at h
    | some pts =>
      rw [show c.radix (some pts) = (radixList c pts).mergeSort precisionLe from rfl,
        List.mem_mergeSort] at h
      obtain ⟨p, t, a, hhas, hprec, _, horb⟩ := exists_source_of_mem_radixList c pts r h
      refine ⟨calcPrecision p t a.degree, hprec, abs_nonneg _, ?_⟩
      have h0 : (0:ℚ) ≤ calcPrecision p t a.degree := abs_nonneg _
      rw [horb, abs_of_nonneg h0]
      exact calcPrecision_le_of_hasAspect p t a hhas
  · cases points with
    | none => simp [AspectCalculator.transit] at h
    | some pts =>
      rw [show c.transit (some pts) = (transitList c pts).mergeSort precisionLe from rfl,
        List.mem_mergeSort] at h
      obtain ⟨p, t, sp, a, hhas, hprec, _, horb⟩ :=
        exists_source_of_mem_transitList c pts r h
      refine ⟨transitPrecision a.degree p t sp, hprec, abs_nonneg _, ?_⟩
      rw [horb, abs_transitPrecision]
      exact calcPrecision_le_of_hasAspect p t a hhas

/-- C7: both entry points return sequences in which every pair of
consecutive records has nondecreasing parsed precision. -/
theorem radix_transit_sorted (c : AspectCalculator) (points : Option Points) :
    List.Chain' (fun r s => parseFloatQ r.precision ≤ parseFloatQ s.precision)
        (c.radix points) ∧
      List.Chain' (fun r s => parseFloatQ r.precision ≤ parseFloatQ s.precision)
        (c.transit points) := by
  constructor
  · cases points with
    | none => exact List.chain'_nil
    | some pts => exact chain_of_mergeSort (radixList c pts)
  · cases points with
    | none => exact List.chain'_nil
    | some pts => exact chain_of_mergeSort (transitList c pts)

/-- C8: no record emitted by radix carries the same name on its point
and toPoint sides, the exclusion being keyed on the names. -/
theorem radix_never_self_named (c : AspectCalculator) (points : Option Points)
    (r : FormedAspect) (h : r ∈ c.radix points) :
    r.point.name ≠ r.toPoint.name := by
  cases points with
  | none => simp [AspectCalculator.radix] at h
  | some pts =>
    rw [show c.radix (some pts) = (radixList c pts).mergeSort precisionLe from rfl,
      List.mem_mergeSort] at h
    simp only [radixList, List.mem_flatMap] at h
    obtain ⟨pp, _, tp, _, hmem⟩ := h
    by_cases hne : pp.1 = tp.1
    · rw [if_neg (not_not_intro hne)] at hmem
      simp at hmem
    · rw [if_pos hne] at hmem
      simp only [List.mem_map, List.mem_filter] at hmem
      obtain ⟨asp, _, hr⟩ := hmem
      rw [← hr]
      exact hne

/-- C9 (amended): a null reference set fails construction with the
message ending in a period, no engine being produced, while a null query
set is accepted by both entry points and yields the empty sequence. -/
theorem make_null_fails_null_query_empty (s : Option SettingsOpt)
    (c : AspectCalculator) :
    AspectCalculator.make none s =
        Except.error "Param \x27toPoint\x27 must not be empty." ∧
      c.radix none = [] ∧ c.transit none = [] :=
  ⟨rfl, rfl, rfl⟩

/-- C10: an exactly formed transit aspect always formats its precision
as the unsigned zero string, whatever sign negations applied. -/
theorem transit_exact_formats_plain_zero (deg p t : ℚ) (sp : Option ℚ)
    (h : calcPrecision p t deg = 0) :
    toFixed4 (transitPrecision deg p t sp) = "0.0000" := by
  have hz : transitPrecision deg p t sp = 0 := by
    rw [transitPrecision_eq, h]
    ring
  rw [hz]
  exact toFixed4_zero

/-- C3 (amended): with the point and toPoint positions exactly equal
and in range, the approach classification is false except in the corner
where the aspect degree is 180 and the position is at least 180, where
the single fold of the projected point across the wrap makes it true. -/
theorem approaching_self_iff (a p : ℚ) (ha0 : 0 ≤ a) (ha1 : a ≤ 180)
    (hp0 : 0 ≤ p) (hp1 : p < 360) :
    isTransitPointApproachingToAspect a p p = true ↔ (a = 180 ∧ 180 ≤ p) := by
  have e1 : ¬(p - p > 0) := by simp
  have e2 : ¬(p - p > radiansToDegreePi) := by
    rw [sub_self, radiansToDegreePi]
    norm_num
  simp only [isTransitPointApproachingToAspect, radiansToDegreePi,
    radiansToDegreeTwoPi] at e2 ⊢
  rw [if_neg e1, if_neg e2]
  rcases lt_or_le (p + a) 360 with hc | hc
  · rw [jsMod_eq_self (p + a) (by linarith) hc]
    have hd : p + a - p = a := by ring
    rw [hd, abs_of_nonneg ha0, if_neg (by linarith : ¬(a > 180))]
    simp only [decide_eq_true_eq]
    constructor
    · intro hneg
      exfalso
      rw [hd] at hneg
      linarith
    · rintro ⟨rfl, h180⟩
      linarith
  · rw [jsMod_sub_360 (p + a) hc (by linarith)]
    have habs : |p + a - 360 - p| = 360 - a := by
      rw [show p + a - 360 - p = -(360 - a) by ring, abs_neg,
        abs_of_nonneg (by linarith)]
    rw [habs]
    rcases eq_or_lt_of_le ha1 with heq | hlt
    · subst heq
      rw [if_neg (by norm_num : ¬((360:ℚ) - 180 > 180)), decide_eq_true_eq]
      dsimp only
      constructor
      · intro _
        exact ⟨rfl, by linarith⟩
      · intro _
        linarith
    · rw [if_pos (by linarith : (360:ℚ) - a > 180), decide_eq_true_eq]
      dsimp only
      constructor
      · intro hneg
        exfalso
        linarith
      · rintro ⟨heq, _⟩
        linarith

section ConcreteCases

attribute [local semireducible] Rat.add Rat.sub Rat.mul Rat.inv Rat.ofScientific

/-- C3 counterexample: at aspect degree 180 with both positions exactly
180, the approach classification returns true, not false. -/
theorem approaching_self_true_at_opposition :
    isTransitPointApproachingToAspect 180 180 180 = true := by decide

/-- C3 witness: the amended equivalence instantiated in the corner where
the classification of an identical pair is true. -/
theorem approaching_self_iff_witness :
    isTransitPointApproachingToAspect 180 200 200 = true :=
  (approaching_self_iff 180 200 (by norm_num) (by norm_num) (by norm_num)
    (by norm_num)).mpr ⟨rfl, by norm_num⟩

/-- C4 counterexample: adding a full turn to the larger angle drives the
once-folded gap negative, so the invariance fails there. -/
theorem reducedGap_add_turn_counterexample :
    reducedGap (50 + 360) 0 = -50 ∧ reducedGap 50 0 = 50 ∧
      reducedGap (50 + 360) 0 ≠ reducedGap 50 0 := by decide

/-- C4 witness: the amended invariances instantiated at concrete
angles. -/
theorem reducedGap_swap_and_add_turn_witness :
    reducedGap 10 20 = reducedGap 20 10 ∧
      reducedGap (10 + 360) 20 = reducedGap 10 20 :=
  ⟨(reducedGap_swap_and_add_turn 10 20).1,
   (reducedGap_swap_and_add_turn 10 20).2.1 (by norm_num) (by norm_num) (by norm_num)⟩

/-- C9 counterexample: the construction-time error message carries a
trailing period, so it differs from the quoted message without one. -/
theorem make_error_message_ends_with_period :
    AspectCalculator.make none none =
        Except.error "Param \x27toPoint\x27 must not be empty." ∧
      ("Param \x27toPoint\x27 must not be empty." : String) ≠
        "Param \x27toPoint\x27 must not be empty" :=
  ⟨rfl, by decide⟩

/-- C2 witness: an approaching retrograde transit at concrete positions
recovers the unsigned nonnegative precision. -/
theorem transitPrecision_double_negation_witness :
    isTransitPointApproachingToAspect 0 10 5 = true ∧
      isRetrograde (some (-1)) = true ∧
      transitPrecision 0 5 10 (some (-1)) = calcPrecision 5 10 0 ∧
      0 ≤ transitPrecision 0 5 10 (some (-1)) :=
  ⟨by decide, by decide,
   ((transitPrecision_double_negation 0 5 10 (some (-1))).2 (by decide) (by decide)).1,
   ((transitPrecision_double_negation 0 5 10 (some (-1))).2 (by decide) (by decide)).2⟩


/-- C10 witness: an exact square transit of a retrograde point formats
as the plain zero string. -/
theorem transit_exact_formats_plain_zero_witness :
    calcPrecision 0 90 90 = 0 ∧
      toFixed4 (transitPrecision 90 0 90 (some (-1))) = "0.0000" :=
  ⟨by decide, transit_exact_formats_plain_zero 90 0 90 (some (-1)) (by decide)⟩

/-- The single record the concrete Moon and Sun case is expected to
produce: a square of the Sun at 0 to the Moon at 90, exact. -/
def sunMoonSquare : FormedAspect :=
  ⟨⟨"Sun", 0⟩, ⟨"Moon", 90⟩, ⟨"square", 90, "#ff0000", 8, "short"⟩, "0.0000"⟩

/-- The concrete engine of the Moon and Sun case: the default catalog
with the Moon at 90 as the sole reference point. -/
def moonCalculator : AspectCalculator :=
  ⟨DEFAULT_ASPECTS, [("Moon", ⟨90, none⟩)]⟩

/-- C5: the Moon-at-90 reference engine with the default catalog, fed
the Sun-at-0 query, yields exactly the one square record with precision
0.0000. -/
theorem radix_single_square_record :
    AspectCalculator.make (some [("Moon", ⟨90, none⟩)]) none =
        Except.ok moonCalculator ∧
      AspectCalculator.radix moonCalculator (some [("Sun", ⟨0, none⟩)]) =
        [sunMoonSquare] := by
  constructor
  · rfl
  · have h : radixList moonCalculator [("Sun", ⟨0, none⟩)] = [sunMoonSquare] := by
      decide
    show (radixList moonCalculator [("Sun", ⟨0, none⟩)]).mergeSort precisionLe = _
    rw [h]
    simp [List.mergeSort]

/-- C8 witness: a concrete emitted record, whose two sides indeed carry
different names. -/
theorem radix_never_self_named_witness :
    sunMoonSquare ∈
        AspectCalculator.radix moonCalculator (some [("Sun", ⟨0, none⟩)]) ∧
      sunMoonSquare.point.name ≠ sunMoonSquare.toPoint.name := by
  have hmem : sunMoonSquare ∈
      AspectCalculator.radix moonCalculator (some [("Sun", ⟨0, none⟩)]) := by
    show _ ∈ (radixList moonCalculator [("Sun", ⟨0, none⟩)]).mergeSort precisionLe
    rw [List.mem_mergeSort]
    decide
  exact ⟨hmem, radix_never_self_named _ _ _ hmem⟩

/-- C6 witness: the concrete exact square record, whose formatted value
zero lies inside half the orbit of the square. -/
theorem precision_within_half_orbit_witness :
    ∃ s : ℚ, sunMoonSquare.precision = toFixed4 s ∧ 0 ≤ |s| ∧
      |s| ≤ sunMoonSquare.aspect.orbit / 2 := by
  have hmem : sunMoonSquare ∈
      AspectCalculator.radix moonCalculator (some [("Sun", ⟨0, none⟩)]) := by
    show _ ∈ (radixList moonCalculator [("Sun", ⟨0, none⟩)]).mergeSort precisionLe
    rw [List.mem_mergeSort]
    decide
  exact precision_within_half_orbit moonCalculator (some [("Sun", ⟨0, none⟩)])
    sunMoonSquare (Or.inl hmem)

end ConcreteCases

end AstroChart
